import Mathlib

/-!
Shallow embedding of `src/app.py` (PDF Insight Explorer): the Analyzer
(`AdvancedPDFAnalyzer.generate_content_with_retry`), the missing predefined
intent method (`analyze_pdf_content`), and the Store / Extractor
(`RealTimeDatabaseManager.extract_pdf_data`, `get_pdf_content`), together
with theorems settling the claims about them.

Python strings are modelled as Lean `String` (a list of unicode scalar
values, matching Python code points); a raised exception is modelled as the
`Except.error` branch carrying the exception message `str(e)`; the sqlite
connection is modelled as committed rows plus the pending rows of the open
transaction (Python sqlite3 opens a transaction on the first INSERT and
`commit()` publishes all pending rows; uncommitted rows are visible to
reads made through the same connection and are not rolled back when an
unrelated Python exception propagates).
-/

namespace PDFInsight

/-- Python slice `s[:n]`: the first `n` code points of `s` (all of `s` when
it is shorter). -/
def pySlice (s : String) (n : Nat) : String :=
  String.mk (s.data.take n)

/-- Model of `truncated_content = pdf_content[:50000]` (app.py line 23). -/
def truncated_content (pdf_content : String) : String :=
  pySlice pdf_content 50000

/-- Fixed framing text of the f-string before `{truncated_content}`
(app.py lines 26-27). -/
def promptHeader : String :=
  "\n        PDF Document Context:\n        "

/-- Fixed framing text of the f-string between `{truncated_content}` and
`{prompt}` (app.py lines 29-30). -/
def promptMid : String :=
  "\n\n        User\x27s Specific Request:\n        "

/-- Fixed framing text of the f-string after `{prompt}` (app.py lines 32-34). -/
def promptTail : String :=
  "\n\n        Please provide a comprehensive and precise response based on the document and the user\x27s request.\n        "

/-- Model of `full_prompt` as assembled by the f-string in
`generate_content_with_retry` (app.py lines 26-34). -/
def full_prompt (prompt pdf_content : String) : String :=
  promptHeader ++ truncated_content pdf_content ++ (promptMid ++ prompt ++ promptTail)

/-- Behaviour of the remote service `self.model.generate_content`: given the
prompt and the attempt index, either a response text (`Except.ok`) or a
raised exception with message `str(e)` (`Except.error`). The attempt index
lets one environment behave differently on successive calls with the same
prompt. -/
def Oracle : Type :=
  String → Nat → Except String String

/-- The `for attempt in range(max_retries)` loop of
`generate_content_with_retry` (app.py lines 36-43), iterating over the
remaining attempt indices. Returns the value produced by a `return`
statement inside the loop (`none` when the loop body never returns) paired
with the number of calls made to the remote service. The
`time.sleep(2 ** attempt)` backoff affects timing only and is not modelled. -/
def runAttempts (gen : Nat → Except String String) (max_retries : Nat) :
    List Nat → Option String × Nat
  | [] => (none, 0)
  | attempt :: rest =>
    match gen attempt with
    | Except.ok text => (some text, 1)
    | Except.error e =>
      if attempt = max_retries - 1 then
        (some ("Error processing request: " ++ e), 1)
      else
        let r := runAttempts gen max_retries rest
        (r.1, r.2 + 1)

/-- Model of `AdvancedPDFAnalyzer.generate_content_with_retry` (app.py lines 18-44):
builds `full_prompt`, runs the retry loop, and falls back to
`"Unable to process request"` when the loop finishes without returning.
The second component counts the calls made to the remote service. -/
def generate_content_with_retry (gen : Oracle) (prompt pdf_content : String)
    (max_retries : Nat) : String × Nat :=
  match runAttempts (gen (full_prompt prompt pdf_content)) max_retries
      (List.range max_retries) with
  | (some result, n) => (result, n)
  | (none, n) => ("Unable to process request", n)

/-- Modelled from the spec: `main` (app.py line 191) calls
`self.pdf_analyzer.analyze_pdf_content(full_text, analysis_type.lower().replace(" ", "_"))`,
but `AdvancedPDFAnalyzer` defines no such method anywhere in the source.
Per spec sections 4.4 and 9, the missing method maps each fixed intent name
to an instruction template through a lookup table (treated as
configuration, hence a parameter here) and delegates to the same retry
path as the free-form mode. -/
def analyze_pdf_content (templates : String → String) (gen : Oracle)
    (pdf_content analysis_type : String) (max_retries : Nat) : String × Nat :=
  generate_content_with_retry gen (templates analysis_type) pdf_content max_retries

/-- The fixed set of predefined analysis intents, as produced by
`analysis_type.lower().replace(" ", "_")` in `main` (app.py lines 168-174
and 193) from the non-custom entries of `analysis_options`. -/
def predefinedIntents : List String :=
  ["summarize", "document_information", "step-by-step_explanation", "key_insights"]

/-- One row of the `pdf_data` table as `extract_pdf_data` fills it
(app.py lines 58-66 and 83-87); the autoincrement id is the position in
the row list and the timestamp column is not modelled. -/
structure PageRecord where
  filename : String
  page_number : Nat
  content : String
  deriving DecidableEq

/-- The sqlite connection opened in `RealTimeDatabaseManager.__init__`
(app.py line 51): rows already committed, plus the pending rows of the
transaction that Python sqlite3 keeps open between an INSERT and the next
`commit()`. Same-connection reads see both; a Python exception does not
roll pending rows back. -/
structure DBState where
  committed : List PageRecord
  pending : List PageRecord
  deriving DecidableEq

/-- The freshly created empty store. -/
def emptyDB : DBState :=
  DBState.mk [] []

/-- Model of `self.cursor.execute(INSERT ...)` (app.py lines 83-87): the row joins
the open transaction. -/
def execInsert (db : DBState) (r : PageRecord) : DBState :=
  DBState.mk db.committed (db.pending ++ [r])

/-- Model of `self.conn.commit()` (app.py line 94): every pending row becomes
committed. -/
def dbCommit (db : DBState) : DBState :=
  DBState.mk (db.committed ++ db.pending) []

/-- One page handed to the loop of `extract_pdf_data`:
`page.extract_text()` either returns the page text or raises
(`Except.error`), in which case the exception propagates out of
`extract_pdf_data` (there is no try block around the loop, app.py
lines 77-92). -/
def Page : Type :=
  Except Unit String

/-- The `for page_num in range(len(pdf_reader.pages))` loop of
`extract_pdf_data` (app.py lines 77-92): accumulates `full_text`
(`full_text += page_text + "\n\n"`), inserts one row per page with
`page_num + 1`, and appends the same record to `extracted_data`. On a
raised exception the loop aborts, keeping the inserts already executed
as pending rows. -/
def extractLoop (db : DBState) (name : String) (pages : List Page)
    (page_num : Nat) (full_text : String) (extracted : List PageRecord) :
    Except Unit (List PageRecord × String) × DBState :=
  match pages with
  | [] => (Except.ok (extracted, full_text), db)
  | page :: rest =>
    match page with
    | Except.error _ => (Except.error (), db)
    | Except.ok page_text =>
      extractLoop (execInsert db (PageRecord.mk name (page_num + 1) page_text))
        name rest (page_num + 1) (full_text ++ (page_text ++ "\n\n"))
        (extracted ++ [PageRecord.mk name (page_num + 1) page_text])

/-- Model of `RealTimeDatabaseManager.extract_pdf_data` (app.py lines 69-95): runs
the page loop from `full_text = ""` and `extracted_data = []`, commits on
normal completion, and returns `(extracted_data, full_text)`; a raised
exception propagates (`Except.error`) and skips the commit. -/
def extract_pdf_data (db : DBState) (name : String) (pages : List Page) :
    Except Unit (List PageRecord × String) × DBState :=
  match extractLoop db name pages 0 "" [] with
  | (Except.ok res, db1) => (Except.ok res, dbCommit db1)
  | (Except.error e, db1) => (Except.error e, db1)

/-- Python `sep.join(parts)`: empty for no parts, otherwise the parts with
`sep` between consecutive parts. -/
def strJoin (sep : String) : List String → String
  | [] => ""
  | [t] => t
  | t :: u :: rest => t ++ sep ++ strJoin sep (u :: rest)

/-- Model of `RealTimeDatabaseManager.get_pdf_content` (app.py lines 97-102):
`SELECT content FROM pdf_data` through the shared connection (seeing
committed and pending rows, in insertion order) and
the space-join of the contents. -/
def get_pdf_content (db : DBState) : String :=
  strJoin " " ((db.committed ++ db.pending).map PageRecord.content)

/-- The records the loop of `extract_pdf_data` builds for page texts
`texts` when the enclosing document position starts at `k` (so the first
record gets page number `k + 1`). -/
def recordsFrom (name : String) (k : Nat) : List String → List PageRecord
  | [] => []
  | t :: rest => PageRecord.mk name (k + 1) t :: recordsFrom name (k + 1) rest

/-- The records `extract_pdf_data` stores for a document whose pages
extract to `texts`. -/
def recordsOf (name : String) (texts : List String) : List PageRecord :=
  recordsFrom name 0 texts

/-- The `full_text` accumulator value of `extract_pdf_data` for page texts
`texts`: each page text followed by the `"\n\n"` separator. -/
def concatPages : List String → String
  | [] => ""
  | t :: rest => (t ++ "\n\n") ++ concatPages rest

/-- A sequence of successful uploads processed through
`extract_pdf_data`, as `main` does one upload per interaction over the
store (app.py line 155). -/
def processAll (uploads : List (String × List String)) (db : DBState) : DBState :=
  match uploads with
  | [] => db
  | u :: rest => processAll rest (extract_pdf_data db u.1 (u.2.map Except.ok)).2

end PDFInsight

namespace PDFInsight

theorem pySlice_short (s : String) (n : Nat) (h : s.length ≤ n) :
    pySlice s n = s := by
  unfold pySlice
  rw [List.take_of_length_le h]

theorem runAttempts_all_fail (err : Nat → String) (m : Nat) :
    ∀ (n a : Nat), a + n = m → 1 ≤ n →
      runAttempts (fun k => Except.error (err k)) m (List.range' a n) =
        (some ("Error processing request: " ++ err (m - 1)), n) := by
  intro n
  induction n with
  | zero => intro a _ h1; omega
  | succ n ih =>
    intro a ha _
    rw [List.range'_succ a n 1]
    cases n with
    | zero =>
      have haeq : a = m - 1 := by omega
      simp [runAttempts, haeq]
    | succ n' =>
      have hane : ¬ (a = m - 1) := by omega
      have hrec := ih (a + 1) (by omega) (by omega)
      rw [List.range'_succ (a + 1) n' 1] at hrec
      simp only [runAttempts, hane, if_false]
      simp only [runAttempts] at hrec
      rw [hrec]

theorem runAttempts_fail_then_ok (err : Nat → String) (t : String) (K m : Nat) :
    ∀ (n a : Nat), a + n = m → a ≤ K → K < m →
      runAttempts (fun k => if k < K then Except.error (err k) else Except.ok t) m
          (List.range' a n) =
        (some t, K - a + 1) := by
  intro n
  induction n with
  | zero => intro a h0 h1 h2; omega
  | succ n ih =>
    intro a ha haK hKm
    rw [List.range'_succ a n 1]
    by_cases haK2 : a < K
    · have hane : ¬ (a = m - 1) := by omega
      have hrec := ih (a + 1) (by omega) (by omega) hKm
      cases n with
      | zero => omega
      | succ n' =>
        rw [List.range'_succ (a + 1) n' 1] at hrec
        simp only [runAttempts, haK2, if_true, hane, if_false]
        simp only [runAttempts] at hrec
        rw [hrec]
        have : K - a = K - (a + 1) + 1 := by omega
        rw [this]
    · have haeq : a = K := by omega
      simp [runAttempts, haeq]

theorem runAttempts_contract (gen : Nat → Except String String) (m : Nat) :
    ∀ (n a : Nat), a + n = m → 1 ≤ n →
      ∃ r, (runAttempts gen m (List.range' a n)).1 = some r ∧
        ((∃ k, a ≤ k ∧ k < m ∧ gen k = Except.ok r) ∨
          (∃ e, gen (m - 1) = Except.error e ∧
            r = "Error processing request: " ++ e)) := by
  intro n
  induction n with
  | zero => intro a h0 h1; omega
  | succ n ih =>
    intro a ha _
    rw [List.range'_succ a n 1]
    match hgen : gen a with
    | Except.ok t =>
      refine ⟨t, ?_, Or.inl ⟨a, le_refl a, by omega, hgen⟩⟩
      simp [runAttempts, hgen]
    | Except.error e =>
      by_cases haeq : a = m - 1
      · subst haeq
        refine ⟨"Error processing request: " ++ e, ?_, Or.inr ⟨e, hgen, rfl⟩⟩
        simp [runAttempts, hgen]
      · have hn : 1 ≤ n := by omega
        obtain ⟨r, hr, hcase⟩ := ih (a + 1) (by omega) hn
        refine ⟨r, ?_, ?_⟩
        · simp only [runAttempts, hgen, haeq, if_false]
          exact hr
        · rcases hcase with ⟨k, hk1, hk2, hk3⟩ | h2
          · exact Or.inl ⟨k, by omega, hk2, hk3⟩
          · exact Or.inr h2

theorem gcwr_eq (gen : Oracle) (p c : String) (m : Nat) (r : String) (n : Nat)
    (h : runAttempts (gen (full_prompt p c)) m (List.range m) = (some r, n)) :
    generate_content_with_retry gen p c m = (r, n) := by
  unfold generate_content_with_retry
  rw [h]

theorem gcwr_fst (gen : Oracle) (p c : String) (m : Nat) (r : String)
    (h : (runAttempts (gen (full_prompt p c)) m (List.range m)).1 = some r) :
    (generate_content_with_retry gen p c m).1 = r := by
  have heta : runAttempts (gen (full_prompt p c)) m (List.range m) =
      (some r, (runAttempts (gen (full_prompt p c)) m (List.range m)).2) := by
    rw [← h]
  rw [gcwr_eq gen p c m r _ heta]

theorem extractLoop_ok (name : String) :
    ∀ (texts : List String) (db : DBState) (k : Nat) (ft : String)
      (acc : List PageRecord),
      extractLoop db name (texts.map Except.ok) k ft acc =
        (Except.ok (acc ++ recordsFrom name k texts, ft ++ concatPages texts),
          DBState.mk db.committed (db.pending ++ recordsFrom name k texts)) := by
  intro texts
  induction texts with
  | nil =>
    intro db k ft acc
    simp [extractLoop, recordsFrom, concatPages, String.append_empty]
  | cons t rest ih =>
    intro db k ft acc
    simp only [List.map_cons, extractLoop]
    rw [ih]
    simp [execInsert, recordsFrom, concatPages, List.append_assoc,
      String.append_assoc]

theorem extract_pdf_data_ok (db : DBState) (name : String) (texts : List String) :
    extract_pdf_data db name (texts.map Except.ok) =
      (Except.ok (recordsOf name texts, concatPages texts),
        DBState.mk (db.committed ++ (db.pending ++ recordsOf name texts)) []) := by
  unfold extract_pdf_data
  rw [extractLoop_ok name texts db 0 "" []]
  simp [recordsOf, dbCommit]

theorem recordsOf_map_content (name : String) :
    ∀ (texts : List String) (k : Nat),
      (recordsFrom name k texts).map PageRecord.content = texts := by
  intro texts
  induction texts with
  | nil => intro k; rfl
  | cons t rest ih => intro k; simp [recordsFrom, ih]

theorem recordsFrom_mem (name : String) :
    ∀ (texts : List String) (k i : Nat) (h : i < texts.length),
      PageRecord.mk name (k + i + 1) (texts.get ⟨i, h⟩) ∈
        recordsFrom name k texts := by
  intro texts
  induction texts with
  | nil => intro k i h; simp at h
  | cons t rest ih =>
    intro k i h
    cases i with
    | zero => simp [recordsFrom]
    | succ i =>
      refine List.mem_cons_of_mem _ ?_
      have harith : k + (i + 1) + 1 = (k + 1) + i + 1 := by omega
      rw [harith]
      exact ih (k + 1) i (by simpa using h)

theorem processAll_flat :
    ∀ (uploads : List (String × List String)) (db : DBState),
      db.pending = [] →
      processAll uploads db =
        DBState.mk (db.committed ++ uploads.flatMap (fun u => recordsOf u.1 u.2))
          [] := by
  intro uploads
  induction uploads with
  | nil =>
    intro db h
    cases db with
    | mk c p => simp_all [processAll]
  | cons u rest ih =>
    intro db h
    simp only [processAll]
    rw [extract_pdf_data_ok db u.1 u.2, ih _ rfl]
    simp [h, List.flatMap_cons, List.append_assoc]

theorem strJoin_mem_split (sep : String) :
    ∀ (l : List String) (t : String), t ∈ l →
      ∃ pre post, strJoin sep l = pre ++ t ++ post := by
  intro l
  induction l with
  | nil => intro t h; simp at h
  | cons x rest ih =>
    intro t h
    cases rest with
    | nil =>
      have hx : t = x := by simpa using h
      subst hx
      exact ⟨"", "", by simp [strJoin]⟩
    | cons y rest2 =>
      rcases List.mem_cons.mp h with rfl | h2
      · refine ⟨"", sep ++ strJoin sep (y :: rest2), ?_⟩
        simp [strJoin, String.append_assoc]
      · obtain ⟨pre, post, hpre⟩ := ih t h2
        refine ⟨x ++ sep ++ pre, post, ?_⟩
        simp [strJoin, hpre, String.append_assoc]

/-- Claim C1: when the remote generate call raises an exception on every
attempt, `generate_content_with_retry` with `max_retries = 3` returns the
string `"Error processing request: "` followed by the message of the last
(third) failure, makes exactly 3 calls to the remote service, and, being a
total function to `String`, never propagates an exception to the caller. -/
theorem retry_exhaustion_returns_error (err : Nat → String)
    (prompt pdf_content : String) :
    generate_content_with_retry (fun _ k => Except.error (err k))
        prompt pdf_content 3 =
      ("Error processing request: " ++ err 2, 3) := by
  apply gcwr_eq
  have h := runAttempts_all_fail err 3 3 0 (by omega) (by omega)
  rw [← List.range_eq_range'] at h
  exact h

/-- Claim C2: when the remote generate call fails on the first `K` attempts
and succeeds on attempt `K` (zero-based), with `K < max_retries`,
`generate_content_with_retry` returns the successful response text and
makes exactly `K + 1` calls to the remote service. -/
theorem retry_success_after_k_failures (err : Nat → String) (t : String)
    (prompt pdf_content : String) (K max_retries : Nat)
    (h : K < max_retries) :
    generate_content_with_retry
        (fun _ k => if k < K then Except.error (err k) else Except.ok t)
        prompt pdf_content max_retries =
      (t, K + 1) := by
  apply gcwr_eq
  have h2 := runAttempts_fail_then_ok err t K max_retries max_retries 0
    (by omega) (by omega) h
  rw [← List.range_eq_range'] at h2
  exact h2

theorem retry_success_after_k_failures_witness :
    1 < 3 ∧
    generate_content_with_retry
        (fun _ k => if k < 1 then Except.error "boom" else Except.ok "fine")
        "Summarize" "doc" 3 =
      ("fine", 2) :=
  ⟨by omega,
    retry_success_after_k_failures (fun _ => "boom") "fine" "Summarize" "doc"
      1 3 (by omega)⟩

/-- Claim C3: the composed prompt contains the document text verbatim when
its length is at most 50000 characters, and otherwise contains the excerpt
`truncated_content`, which is exactly the first 50000 characters of the
text (a prefix slice of length 50000, never more). -/
theorem prompt_truncation (prompt c : String) :
    (c.length ≤ 50000 →
      ∃ pre post, full_prompt prompt c = pre ++ c ++ post)
    ∧ (50000 < c.length →
      ∃ pre post, full_prompt prompt c = pre ++ truncated_content c ++ post
        ∧ truncated_content c = String.mk (c.data.take 50000)
        ∧ (truncated_content c).length = 50000) := by
  constructor
  · intro h
    refine ⟨promptHeader, promptMid ++ prompt ++ promptTail, ?_⟩
    unfold full_prompt
    rw [show truncated_content c = c from pySlice_short c 50000 h]
  · intro h
    refine ⟨promptHeader, promptMid ++ prompt ++ promptTail, rfl, rfl, ?_⟩
    show (c.data.take 50000).length = 50000
    rw [List.length_take]
    exact Nat.min_eq_left (le_of_lt h)

theorem prompt_truncation_witness :
    String.length "doc" ≤ 50000 ∧
    ∃ pre post, full_prompt "Summarize" "doc" = pre ++ "doc" ++ post :=
  ⟨by decide, (prompt_truncation "Summarize" "doc").1 (by decide)⟩

/-- Claim C4: for every intent in the fixed predefined set, the
spec-modelled `analyze_pdf_content` produces a displayable result string
under the same retry and error contract as the free-form mode: the result
is either a successful response text of the remote service or an error
string prefixed `"Error processing request: "`, never an unhandled
fault. -/
theorem predefined_intents_share_retry_contract (templates : String → String)
    (gen : Oracle) (pdf_text intent : String)
    (hmem : intent ∈ predefinedIntents) :
    (∃ k, k < 3 ∧ gen (full_prompt (templates intent) pdf_text) k =
        Except.ok (analyze_pdf_content templates gen pdf_text intent 3).1) ∨
    (∃ e, (analyze_pdf_content templates gen pdf_text intent 3).1 =
        "Error processing request: " ++ e) := by
  obtain ⟨r, hr, hcase⟩ :=
    runAttempts_contract (gen (full_prompt (templates intent) pdf_text)) 3 3 0
      (by omega) (by omega)
  rw [← List.range_eq_range'] at hr
  have hres : (analyze_pdf_content templates gen pdf_text intent 3).1 = r :=
    gcwr_fst gen (templates intent) pdf_text 3 r hr
  rcases hcase with ⟨k, _, hk2, hk3⟩ | ⟨e, _, he⟩
  · exact Or.inl ⟨k, hk2, by rw [hres]; exact hk3⟩
  · exact Or.inr ⟨e, by rw [hres, he]⟩

theorem predefined_intents_share_retry_contract_witness :
    ("summarize" ∈ predefinedIntents) ∧
    ((∃ k, k < 3 ∧
        (fun (_ : String) (_ : Nat) => (Except.error "x" : Except String String))
            (full_prompt "Summarize the document" "doc") k =
          Except.ok (analyze_pdf_content (fun _ => "Summarize the document")
            (fun _ _ => Except.error "x") "doc" "summarize" 3).1) ∨
      (∃ e, (analyze_pdf_content (fun _ => "Summarize the document")
          (fun _ _ => Except.error "x") "doc" "summarize" 3).1 =
        "Error processing request: " ++ e)) :=
  ⟨by decide,
    predefined_intents_share_retry_contract (fun _ => "Summarize the document")
      (fun _ _ => Except.error "x") "doc" "summarize" (by decide)⟩

/-- Claim C10: whenever `max_retries` is at least 1, the retry loop itself
returns (`some`), so the result of `generate_content_with_retry` is the
value produced inside the loop, which is either a response text of the
remote service or a string beginning `"Error processing request: "`; the
trailing fallback value `"Unable to process request"` is never reached. -/
theorem fallback_unreachable (gen : Oracle) (prompt pdf_content : String)
    (max_retries : Nat) (h : 1 ≤ max_retries) :
    ∃ r, (runAttempts (gen (full_prompt prompt pdf_content)) max_retries
            (List.range max_retries)).1 = some r ∧
      (generate_content_with_retry gen prompt pdf_content max_retries).1 = r ∧
      ((∃ k, k < max_retries ∧
          gen (full_prompt prompt pdf_content) k = Except.ok r) ∨
        (∃ e, r = "Error processing request: " ++ e)) := by
  obtain ⟨r, hr, hcase⟩ :=
    runAttempts_contract (gen (full_prompt prompt pdf_content)) max_retries
      max_retries 0 (by omega) h
  rw [← List.range_eq_range'] at hr
  refine ⟨r, hr, gcwr_fst gen prompt pdf_content max_retries r hr, ?_⟩
  rcases hcase with ⟨k, _, hk2, hk3⟩ | ⟨e, _, he⟩
  · exact Or.inl ⟨k, hk2, hk3⟩
  · exact Or.inr ⟨e, he⟩

theorem fallback_unreachable_witness :
    1 ≤ 3 ∧
    ∃ r, (runAttempts
            ((fun (_ : String) (_ : Nat) =>
              (Except.error "x" : Except String String)) (full_prompt "p" "c"))
            3 (List.range 3)).1 = some r ∧
      (generate_content_with_retry (fun _ _ => Except.error "x") "p" "c" 3).1
        = r ∧
      ((∃ k, k < 3 ∧
          (fun (_ : String) (_ : Nat) =>
            (Except.error "x" : Except String String)) (full_prompt "p" "c") k
            = Except.ok r) ∨
        (∃ e, r = "Error processing request: " ++ e)) :=
  ⟨by omega, fallback_unreachable (fun _ _ => Except.error "x") "p" "c" 3
    (by omega)⟩

/-- Claim C5 counterexample: extracting a one-page PDF already changes the
persistent store, so extraction is not a pure transformation: the claim
fails at the upload `"f.pdf"` with single page text `"Alpha"`. -/
theorem extraction_purity_cex :
    (extract_pdf_data emptyDB "f.pdf" [Except.ok "Alpha"]).2 ≠ emptyDB := by
  decide

/-- Claim C5 as amended: extraction is not pure; `extract_pdf_data` itself
inserts one Page Record per extracted page into the store and commits them
on success (the final store holds the previously committed rows, the
previously pending rows, and the new page records, with nothing pending). -/
theorem extraction_persists_records (db : DBState) (name : String)
    (texts : List String) :
    (extract_pdf_data db name (texts.map Except.ok)).2 =
      DBState.mk (db.committed ++ (db.pending ++ recordsOf name texts)) [] := by
  rw [extract_pdf_data_ok db name texts]

/-- Claim C6: evaluation at the failing input. Uploading `"a.pdf"` whose
second page raises leaves the exception propagating and the page-1 insert
pending: the same-connection read already returns `"Alpha"`, and a later
successful upload of `"b.pdf"` commits the orphaned row, so the store
retains a partial page record of the failed upload, contradicting
per-upload atomicity. -/
theorem atomicity_gap :
    (extract_pdf_data emptyDB "a.pdf"
        [Except.ok "Alpha", Except.error ()]).1 = Except.error ()
    ∧ get_pdf_content
        (extract_pdf_data emptyDB "a.pdf"
          [Except.ok "Alpha", Except.error ()]).2 = "Alpha"
    ∧ PageRecord.mk "a.pdf" 1 "Alpha" ∈
        (extract_pdf_data
          (extract_pdf_data emptyDB "a.pdf"
            [Except.ok "Alpha", Except.error ()]).2
          "b.pdf" [Except.ok "Beta"]).2.committed :=
  ⟨rfl, rfl, by decide⟩

/-- Claim C7: after any sequence of successful uploads starting from the
empty store, `get_pdf_content` returns the space-joined concatenation of
every stored page text in insertion order, the empty store reads as the
empty string, and every stored page text occurs in the result. -/
theorem record_then_read (uploads : List (String × List String)) :
    get_pdf_content (processAll uploads emptyDB) =
      strJoin " " (uploads.flatMap (fun u => u.2))
    ∧ get_pdf_content emptyDB = ""
    ∧ ∀ t, t ∈ uploads.flatMap (fun u => u.2) →
        ∃ pre post,
          get_pdf_content (processAll uploads emptyDB) = pre ++ t ++ post := by
  have hmain : get_pdf_content (processAll uploads emptyDB) =
      strJoin " " (uploads.flatMap (fun u => u.2)) := by
    rw [processAll_flat uploads emptyDB rfl]
    unfold get_pdf_content
    simp [emptyDB, List.map_flatMap, recordsOf, recordsOf_map_content]
  refine ⟨hmain, rfl, ?_⟩
  intro t ht
  obtain ⟨pre, post, hsplit⟩ :=
    strJoin_mem_split " " (uploads.flatMap (fun u => u.2)) t ht
  exact ⟨pre, post, hmain.trans hsplit⟩

theorem record_then_read_witness :
    ("Beta" ∈ ([("f.pdf", ["Alpha", "Beta"])] :
        List (String × List String)).flatMap (fun u => u.2)) ∧
    ∃ pre post,
      get_pdf_content (processAll [("f.pdf", ["Alpha", "Beta"])] emptyDB) =
        pre ++ "Beta" ++ post :=
  ⟨by decide,
    (record_then_read [("f.pdf", ["Alpha", "Beta"])]).2.2 "Beta" (by decide)⟩

/-- Claim C8 counterexample: for a one-page PDF with text `"Alpha"`, the
accumulated full text is `"Alpha\n\n"`, which differs from the blank-line
join of the page texts (`"Alpha"`): the separator also trails the final
page. -/
theorem full_text_join_cex :
    (extract_pdf_data emptyDB "f.pdf" [Except.ok "Alpha"]).1 =
      Except.ok ([PageRecord.mk "f.pdf" 1 "Alpha"], "Alpha\n\n")
    ∧ "Alpha\n\n" ≠ strJoin "\n\n" ["Alpha"] :=
  ⟨rfl, by decide⟩

/-- Claim C8 as amended: the accumulated full-text string equals the
concatenation, in document order, of each page text followed by the
blank-line separator `"\n\n"` — including a trailing separator after the
final page. -/
theorem full_text_trailing_separator (db : DBState) (name : String)
    (texts : List String) :
    (extract_pdf_data db name (texts.map Except.ok)).1 =
      Except.ok (recordsOf name texts, concatPages texts) := by
  rw [extract_pdf_data_ok db name texts]

/-- Claim C9: after any sequence of successful uploads, the store is
exactly the per-upload page records, and the `i`-th page (1-based) of each
uploaded document is stored with page number `i`. -/
theorem page_numbers_one_based (uploads : List (String × List String)) :
    (processAll uploads emptyDB).committed =
      uploads.flatMap (fun u => recordsOf u.1 u.2)
    ∧ ∀ name texts, (name, texts) ∈ uploads →
        ∀ i, ∀ h : i < texts.length,
          PageRecord.mk name (i + 1) (texts.get ⟨i, h⟩) ∈
            (processAll uploads emptyDB).committed := by
  have hflat : (processAll uploads emptyDB).committed =
      uploads.flatMap (fun u => recordsOf u.1 u.2) := by
    rw [processAll_flat uploads emptyDB rfl]
    rfl
  refine ⟨hflat, ?_⟩
  intro name texts hmem i h
  rw [hflat]
  refine List.mem_flatMap.mpr ⟨(name, texts), hmem, ?_⟩
  have hrec := recordsFrom_mem name texts 0 i h
  rw [Nat.zero_add] at hrec
  exact hrec

theorem page_numbers_one_based_witness :
    (("f.pdf", ["Alpha", "Beta"]) ∈
      ([("f.pdf", ["Alpha", "Beta"])] : List (String × List String))) ∧
    1 < 2 ∧
    PageRecord.mk "f.pdf" 2 (List.get ["Alpha", "Beta"] ⟨1, by decide⟩) ∈
      (processAll [("f.pdf", ["Alpha", "Beta"])] emptyDB).committed :=
  ⟨by decide, by omega,
    (page_numbers_one_based [("f.pdf", ["Alpha", "Beta"])]).2 "f.pdf"
      ["Alpha", "Beta"] (by decide) 1 (by decide)⟩

end PDFInsight
